import Mathlib

/-!
Verification of the SIRD fitting program (`src/sird.py`).

The program consists of a forward-Euler integrator for the SIRD ordinary
differential equations (`sird_forecast`), an RMSE scorer (`rmse`, built on
`sklearn.metrics.mean_squared_error`) and an exhaustive grid search over a
fixed Cartesian product of candidate parameter triples (`grid_search_sird`).

The embedding uses exact rational arithmetic (`ℚ`) for the numeric state, the
idealisation of the Python floats, and `ℝ` only where the square root of the
scorer forces it.  Failure (a raised exception) is modelled by `Option`.
-/

namespace SIRD

/-- The four population compartments carried through the Euler loop
(the parallel lists `S`, `I`, `R`, `D` of `sird_forecast`). -/
structure SirdState where
  S : ℚ
  I : ℚ
  R : ℚ
  D : ℚ
deriving DecidableEq, Repr

/-- The dictionary `init_conditions` with keys "S", "I", "R", "D". -/
structure InitConditions where
  S : ℚ
  I : ℚ
  R : ℚ
  D : ℚ
deriving DecidableEq, Repr

/-- The tuple `(time, S, I, R, D)` returned by `sird_forecast`
(after downsampling). -/
structure Trajectory where
  time : List ℚ
  S : List ℚ
  I : List ℚ
  R : List ℚ
  D : List ℚ
deriving DecidableEq, Repr

/-- The four ground-truth columns used by the search
(`Susceptibles`, `Infectés`, `Rétablis`, `Décès`).  The `Jour` column is
used only by plotting, which is outside the verified core. -/
structure GroundTruth where
  susceptibles : List ℚ
  infectes : List ℚ
  retablis : List ℚ
  deces : List ℚ
deriving DecidableEq, Repr

/-- The derivatives `ds`, `di`, `dr`, `dd` computed in the loop body of
`sird_forecast` (lines 38-41), packaged as a state. -/
def sirdDerivs (beta gamma mu : ℚ) (st : SirdState) : SirdState :=
  { S := -beta * st.S * st.I
    I := beta * st.S * st.I - gamma * st.I - mu * st.I
    R := gamma * st.I
    D := mu * st.I }

/-- One Euler integration step (lines 44-47): each component of the next
state is the current component plus the corresponding derivative times
`step`, all derivatives taken from the same pre-step state. -/
def eulerStep (beta gamma mu step : ℚ) (st : SirdState) : SirdState :=
  { S := st.S + (sirdDerivs beta gamma mu st).S * step
    I := st.I + (sirdDerivs beta gamma mu st).I * step
    R := st.R + (sirdDerivs beta gamma mu st).R * step
    D := st.D + (sirdDerivs beta gamma mu st).D * step }

/-- Python's `int()` conversion of a rational (truncation toward zero),
used for `nb_points = int(nb_jours / step)` on line 28. -/
def pyInt (q : ℚ) : ℤ := q.num.tdiv q.den

/-- The main loop of `sird_forecast` (lines 30-53), written tail-first:
`sirdLoop beta gamma mu step t st n` is the list of `(time, state)` pairs
produced starting from the pair `(t, st)` with `n` further iterations, each
appending `(previous time + step, eulerStep of previous state)`. -/
def sirdLoop (beta gamma mu step : ℚ) (t : ℚ) (st : SirdState) : Nat → List (ℚ × SirdState)
  | 0 => [(t, st)]
  | n + 1 => (t, st) :: sirdLoop beta gamma mu step (t + step) (eulerStep beta gamma mu step st) n

/-- The full-resolution trajectory of `sird_forecast` before downsampling:
the initial point `(0, init)` followed by the body of
`for _ in range(1, nb_points)`, which runs `max 0 (nb_points - 1)` times. -/
def sirdFull (beta gamma mu step nbJours : ℚ) (init : SirdState) : List (ℚ × SirdState) :=
  sirdLoop beta gamma mu step 0 init (pyInt (nbJours / step) - 1).toNat

/-- Python extended-slice `l[::k]` (lines 56-60 use `k = 1000`): keep the
head, then every `k`-th element after it. -/
def strideSlice (k : Nat) : List α → List α
  | [] => []
  | a :: rest => a :: strideSlice k (rest.drop (k - 1))
termination_by l => l.length
decreasing_by simp [List.length_drop]; omega

/-- `sird_forecast` (lines 8-61): run the Euler loop, then downsample every
sequence with stride 1000 and return the five sequences. -/
def sird_forecast (beta gamma mu step nbJours : ℚ) (init : InitConditions) : Trajectory :=
  { time := strideSlice 1000 ((sirdFull beta gamma mu step nbJours ⟨init.S, init.I, init.R, init.D⟩).map Prod.fst)
    S := strideSlice 1000 ((sirdFull beta gamma mu step nbJours ⟨init.S, init.I, init.R, init.D⟩).map (fun p => p.2.S))
    I := strideSlice 1000 ((sirdFull beta gamma mu step nbJours ⟨init.S, init.I, init.R, init.D⟩).map (fun p => p.2.I))
    R := strideSlice 1000 ((sirdFull beta gamma mu step nbJours ⟨init.S, init.I, init.R, init.D⟩).map (fun p => p.2.R))
    D := strideSlice 1000 ((sirdFull beta gamma mu step nbJours ⟨init.S, init.I, init.R, init.D⟩).map (fun p => p.2.D)) }

/-- Modelled from the spec: `sklearn.metrics.mean_squared_error(y_true,
y_pred)` is not part of the repository; per the spec's scorer contract it
computes the mean of the squared differences and "fails with a shape/length
mismatch if the downsampled trajectory and ground truth do not have
identical length". -/
def mean_squared_error (yTrue yPred : List ℚ) : Option ℚ :=
  if yTrue.length = yPred.length then
    some ((List.zipWith (fun a b => (a - b) ^ 2) yTrue yPred).sum / (yTrue.length : ℚ))
  else none

/-- `rmse(predictions, targets)` (lines 63-64): the square root of
`mean_squared_error(targets, predictions)`, with the library's failure
propagated. -/
noncomputable def rmse (predictions targets : List ℚ) : Option ℝ :=
  (mean_squared_error targets predictions).map (fun m : ℚ => Real.sqrt (m : ℝ))

/-- The body of the search loop for one candidate (lines 80-86): simulate,
compute the four per-compartment RMSEs against the ground-truth columns,
and sum them.  A failure in any `rmse` call propagates. -/
noncomputable def candidateScore (step nbJours : ℚ) (gt : GroundTruth) (init : InitConditions)
    (c : ℚ × ℚ × ℚ) : Option ℝ :=
  match rmse (sird_forecast c.1 c.2.1 c.2.2 step nbJours init).S gt.susceptibles,
        rmse (sird_forecast c.1 c.2.1 c.2.2 step nbJours init).I gt.infectes,
        rmse (sird_forecast c.1 c.2.1 c.2.2 step nbJours init).R gt.retablis,
        rmse (sird_forecast c.1 c.2.1 c.2.2 step nbJours init).D gt.deces with
  | some a, some b, some c, some d => some (a + b + c + d)
  | _, _, _, _ => none

/-- `numpy.linspace a b n` (for `n ≥ 2`): `n` evenly spaced values from `a`
to `b` inclusive, the `i`-th being `a + i * ((b - a) / (n - 1))`. -/
def linspace (a b : ℚ) (n : Nat) : List ℚ :=
  (List.range n).map (fun i : Nat => a + (i : ℚ) * ((b - a) / ((n : ℚ) - 1)))

/-- `betas = numpy.linspace(0.1, 1, 20)` (line 69). -/
def betas : List ℚ := linspace (1/10) 1 20

/-- `gammas = numpy.linspace(0.1, 1, 4)` (line 70). -/
def gammas : List ℚ := linspace (1/10) 1 4

/-- `mus = numpy.linspace(0.01, 0.5, 4)` (line 71). -/
def mus : List ℚ := linspace (1/100) (1/2) 4

/-- `product(betas, gammas, mus)` (line 79): the Cartesian product in
`itertools.product` order - beta outermost, then gamma, then mu. -/
def paramProduct (bs gs ms : List ℚ) : List (ℚ × ℚ × ℚ) :=
  bs.flatMap (fun b => gs.flatMap (fun g => ms.map (fun m => (b, g, m))))

/-- The fixed candidate set scanned by `grid_search_sird`. -/
def sirdCandidates : List (ℚ × ℚ × ℚ) := paramProduct betas gammas mus

/-- The search loop (lines 76-90), generic in the score type: starting from
`best_beta, best_gamma, best_mu = None` and `best_rmse = float("inf")`
(modelled as `⊤` in `WithTop`), score each candidate in order; a scoring
failure aborts the whole loop; a strictly lower score replaces the best. -/
def gridLoop {σ α : Type} [LinearOrder α] (score : σ → Option α) :
    List σ → Option σ → WithTop α → Option (Option σ × WithTop α)
  | [], best, bestScore => some (best, bestScore)
  | c :: rest, best, bestScore =>
    match score c with
    | none => none
    | some s =>
      if (s : WithTop α) < bestScore then gridLoop score rest (some c) (s : WithTop α)
      else gridLoop score rest best bestScore

/-- `grid_search_sird` (lines 67-98): run the loop over the fixed candidate
set, then re-run `sird_forecast` once with the winning parameters and
return that downsampled trajectory (the winning triple is only printed; the
score is not part of the return value).  `none` models the exceptional
outcomes: a scoring failure aborting the search, or `best_beta` still
`None` at line 95. -/
noncomputable def grid_search_sird (step nbJours : ℚ) (gt : GroundTruth)
    (init : InitConditions) : Option Trajectory :=
  match gridLoop (candidateScore step nbJours gt init) sirdCandidates none ⊤ with
  | none => none
  | some (none, _) => none
  | some (some c, _) => some (sird_forecast c.1 c.2.1 c.2.2 step nbJours init)

/-- Follows the spec's words (section 4.2), for comparison with the code's
scorer: the per-compartment error is "the square root of the mean squared
error between the predicted downsampled array and the corresponding
ground-truth column", failing on a length mismatch. -/
noncomputable def specCompartmentError (pred target : List ℚ) : Option ℝ :=
  if pred.length = target.length then
    some (Real.sqrt
      (((List.zipWith (fun p t => (p - t) ^ 2) pred target).sum / (pred.length : ℚ) : ℚ) : ℝ))
  else none

/-- Follows the spec's words (section 4.2): the aggregate score is the
"unweighted sum of the four per-compartment errors". -/
noncomputable def specAggregateScore (step nbJours : ℚ) (gt : GroundTruth)
    (init : InitConditions) (c : ℚ × ℚ × ℚ) : Option ℝ :=
  match specCompartmentError (sird_forecast c.1 c.2.1 c.2.2 step nbJours init).S gt.susceptibles,
        specCompartmentError (sird_forecast c.1 c.2.1 c.2.2 step nbJours init).I gt.infectes,
        specCompartmentError (sird_forecast c.1 c.2.1 c.2.2 step nbJours init).R gt.retablis,
        specCompartmentError (sird_forecast c.1 c.2.1 c.2.2 step nbJours init).D gt.deces with
  | some a, some b, some u, some v => some (a + b + u + v)
  | _, _, _, _ => none

/-- A concrete initial state used to witness the theorems on small inputs. -/
def initUnit : InitConditions := ⟨9/10, 1/10, 0, 0⟩

/-- A concrete one-row ground truth matching `initUnit`: with `step = 1` and
`nb_jours = 3` every candidate's downsampled trajectory is the single
initial point, so every candidate scores zero. -/
def gtUnit : GroundTruth := ⟨[9/10], [1/10], [0], [0]⟩

/-- A concrete ground truth whose columns are empty, so every scoring call
has a length mismatch. -/
def gtBad : GroundTruth := ⟨[], [], [], []⟩

/-! ### Helper lemmas about the Euler loop -/

lemma sirdLoop_length (beta gamma mu step t : ℚ) (st : SirdState) (n : Nat) :
    (sirdLoop beta gamma mu step t st n).length = n + 1 := by
  induction n generalizing t st with
  | zero => rfl
  | succ n ih => simp [sirdLoop, ih]

lemma sirdLoop_getElem? (beta gamma mu step : ℚ) :
    ∀ (n i : Nat), i ≤ n → ∀ (t : ℚ) (st : SirdState),
      (sirdLoop beta gamma mu step t st n)[i]? =
        some (t + (i : ℚ) * step, (eulerStep beta gamma mu step)^[i] st) := by
  intro n
  induction n with
  | zero =>
    intro i hi t st
    cases Nat.le_zero.mp hi
    simp [sirdLoop]
  | succ n ih =>
    intro i hi t st
    cases i with
    | zero => simp [sirdLoop]
    | succ j =>
      have hj : j ≤ n := Nat.lt_succ_iff.mp hi
      simp only [sirdLoop, List.getElem?_cons_succ]
      rw [ih j hj]
      rw [Function.iterate_succ_apply]
      congr 2
      push_cast
      ring

lemma sirdLoop_adjacent (beta gamma mu step t : ℚ) (st : SirdState) (n i : Nat)
    (p q : ℚ × SirdState)
    (hp : (sirdLoop beta gamma mu step t st n)[i]? = some p)
    (hq : (sirdLoop beta gamma mu step t st n)[i + 1]? = some q) :
    q = (p.1 + step, eulerStep beta gamma mu step p.2) := by
  have hi1 : i + 1 ≤ n := by
    by_contra h
    have hlen : (sirdLoop beta gamma mu step t st n).length ≤ i + 1 := by
      rw [sirdLoop_length]; omega
    rw [List.getElem?_eq_none hlen] at hq
    exact Option.noConfusion hq
  rw [sirdLoop_getElem? beta gamma mu step n i (by omega) t st] at hp
  rw [sirdLoop_getElem? beta gamma mu step n (i + 1) hi1 t st] at hq
  have hp' := Option.some.inj hp
  have hq' := Option.some.inj hq
  rw [← hp', ← hq']
  rw [Function.iterate_succ_apply']
  refine Prod.ext ?_ rfl
  push_cast
  ring

lemma sirdFull_length (beta gamma mu step nbJours : ℚ) (init : SirdState) :
    (sirdFull beta gamma mu step nbJours init).length =
      (pyInt (nbJours / step) - 1).toNat + 1 :=
  sirdLoop_length beta gamma mu step 0 init _

lemma pyInt_eq_floor (q : ℚ) (hq : 0 ≤ q) : pyInt q = ⌊q⌋ := by
  rw [Rat.floor_def]
  exact Int.tdiv_eq_ediv (Rat.num_nonneg.mpr hq) (Int.natCast_nonneg q.den)

/-! ### Helper lemmas about the stride slice -/

lemma strideSlice_nil {α : Type} (k : Nat) : strideSlice k ([] : List α) = [] := by
  rw [strideSlice]

lemma strideSlice_cons {α : Type} (k : Nat) (a : α) (rest : List α) :
    strideSlice k (a :: rest) = a :: strideSlice k (rest.drop (k - 1)) := by
  rw [strideSlice]

lemma strideSlice_getElem? {α : Type} (k : Nat) (hk : 1 ≤ k) (l : List α) (i : Nat) :
    (strideSlice k l)[i]? = l[k * i]? := by
  induction l using strideSlice.induct k generalizing i with
  | case1 => simp [strideSlice_nil]
  | case2 a rest ih =>
    rw [strideSlice_cons]
    cases i with
    | zero => simp
    | succ j =>
      rw [List.getElem?_cons_succ, ih, List.getElem?_drop]
      have hmul : k * (j + 1) = (k - 1 + k * j) + 1 := by
        rw [Nat.mul_succ]
        omega
      rw [hmul, List.getElem?_cons_succ]

lemma strideSlice_length {α : Type} (k : Nat) (hk : 1 ≤ k) (l : List α) :
    (strideSlice k l).length = (l.length + k - 1) / k := by
  induction l using strideSlice.induct k with
  | case1 =>
    rw [strideSlice_nil]
    simp [Nat.div_eq_of_lt (show k - 1 < k by omega)]
  | case2 a rest ih =>
    rw [strideSlice_cons]
    simp only [List.length_cons, ih, List.length_drop]
    rcases Nat.lt_or_ge rest.length (k - 1) with h | h
    · rw [Nat.sub_eq_zero_of_le (le_of_lt h)]
      rw [Nat.div_eq_of_lt (by omega)]
      rw [show rest.length + 1 + k - 1 = rest.length + k by omega,
        Nat.add_div_right _ (by omega), Nat.div_eq_of_lt (by omega)]
    · rw [show rest.length - (k - 1) + k - 1 = rest.length by omega]
      rw [show rest.length + 1 + k - 1 = rest.length + k by omega,
        Nat.add_div_right _ (by omega)]

/-! ### Helper lemmas about the search loop -/

lemma gridLoop_no_update {σ α : Type} [LinearOrder α] (score : σ → Option α) (f : σ → α)
    (l : List σ) (hs : ∀ c ∈ l, score c = some (f c)) (best : Option σ) (bestS : WithTop α)
    (h : ∀ c ∈ l, ¬((f c : WithTop α) < bestS)) :
    gridLoop score l best bestS = some (best, bestS) := by
  induction l generalizing best bestS with
  | nil => rfl
  | cons c rest ih =>
    have hc := hs c (List.mem_cons_self c rest)
    simp only [gridLoop, hc]
    rw [if_neg (h c (List.mem_cons_self c rest))]
    exact ih (fun d hd => hs d (List.mem_cons_of_mem c hd))
      best bestS (fun d hd => h d (List.mem_cons_of_mem c hd))

lemma gridLoop_first_argmin {σ α : Type} [LinearOrder α] (score : σ → Option α) (f : σ → α) :
    ∀ (l : List σ) (best : Option σ) (bestS : WithTop α),
      (∀ c ∈ l, score c = some (f c)) →
      (∃ c ∈ l, (f c : WithTop α) < bestS) →
      ∃ (i : Nat) (c : σ), l[i]? = some c ∧
        gridLoop score l best bestS = some (some c, (f c : WithTop α)) ∧
        (f c : WithTop α) < bestS ∧
        (∀ (j : Nat) (d : σ), l[j]? = some d → f c ≤ f d) ∧
        (∀ (j : Nat) (d : σ), j < i → l[j]? = some d → f c < f d) := by
  intro l
  induction l with
  | nil =>
    intro best bestS hs h
    simp at h
  | cons c rest ih =>
    intro best bestS hs hex
    have hc := hs c (List.mem_cons_self c rest)
    have hsrest : ∀ d ∈ rest, score d = some (f d) :=
      fun d hd => hs d (List.mem_cons_of_mem c hd)
    by_cases hlt : (f c : WithTop α) < bestS
    · by_cases hrest : ∃ d ∈ rest, (f d : WithTop α) < (f c : WithTop α)
      · obtain ⟨i', c', hget, hloop, hltc, hmin, hfirst⟩ :=
          ih (some c) (f c) hsrest hrest
        refine ⟨i' + 1, c', by simpa using hget, ?_, lt_trans hltc hlt, ?_, ?_⟩
        · simp only [gridLoop, hc]
          rw [if_pos hlt]
          exact hloop
        · intro j d hj
          cases j with
          | zero =>
            simp only [List.getElem?_cons_zero, Option.some.injEq] at hj
            subst hj
            exact le_of_lt (WithTop.coe_lt_coe.mp hltc)
          | succ j' => exact hmin j' d (by simpa using hj)
        · intro j d hji hj
          cases j with
          | zero =>
            simp only [List.getElem?_cons_zero, Option.some.injEq] at hj
            subst hj
            exact WithTop.coe_lt_coe.mp hltc
          | succ j' => exact hfirst j' d (by omega) (by simpa using hj)
      · push_neg at hrest
        refine ⟨0, c, by simp, ?_, hlt, ?_, ?_⟩
        · simp only [gridLoop, hc]
          rw [if_pos hlt]
          exact gridLoop_no_update score f rest hsrest (some c) (f c)
            (fun d hd => not_lt.mpr (hrest d hd))
        · intro j d hj
          cases j with
          | zero =>
            simp only [List.getElem?_cons_zero, Option.some.injEq] at hj
            subst hj
            exact le_refl _
          | succ j' =>
            have hd : d ∈ rest := List.getElem?_mem (by simpa using hj)
            exact WithTop.coe_le_coe.mp (hrest d hd)
        · intro j d hji hj
          exact absurd hji (Nat.not_lt_zero j)
    · obtain ⟨d0, hd0mem, hd0⟩ := hex
      have hd0rest : d0 ∈ rest := by
        rcases List.mem_cons.mp hd0mem with he | he
        · subst he; exact absurd hd0 hlt
        · exact he
      obtain ⟨i', c', hget, hloop, hltc, hmin, hfirst⟩ :=
        ih best bestS hsrest ⟨d0, hd0rest, hd0⟩
      have hle : bestS ≤ (f c : WithTop α) := not_lt.mp hlt
      refine ⟨i' + 1, c', by simpa using hget, ?_, hltc, ?_, ?_⟩
      · simp only [gridLoop, hc]
        rw [if_neg hlt]
        exact hloop
      · intro j d hj
        cases j with
        | zero =>
          simp only [List.getElem?_cons_zero, Option.some.injEq] at hj
          subst hj
          exact WithTop.coe_le_coe.mp (le_of_lt (lt_of_lt_of_le hltc hle))
        | succ j' => exact hmin j' d (by simpa using hj)
      · intro j d hji hj
        cases j with
        | zero =>
          simp only [List.getElem?_cons_zero, Option.some.injEq] at hj
          subst hj
          exact WithTop.coe_lt_coe.mp (lt_of_lt_of_le hltc hle)
        | succ j' => exact hfirst j' d (by omega) (by simpa using hj)

lemma gridLoop_abort {σ α : Type} [LinearOrder α] (score : σ → Option α) :
    ∀ (l : List σ) (best : Option σ) (bestS : WithTop α),
      (∃ c ∈ l, score c = none) → gridLoop score l best bestS = none := by
  intro l
  induction l with
  | nil =>
    intro best bestS h
    simp at h
  | cons c rest ih =>
    intro best bestS h
    cases hc : score c with
    | none => simp [gridLoop, hc]
    | some s =>
      obtain ⟨d, hdmem, hd⟩ := h
      have hdrest : d ∈ rest := by
        rcases List.mem_cons.mp hdmem with he | he
        · subst he; rw [hc] at hd; exact Option.noConfusion hd
        · exact he
      simp only [gridLoop, hc]
      split
      · exact ih _ _ ⟨d, hdrest, hd⟩
      · exact ih _ _ ⟨d, hdrest, hd⟩

lemma gridLoop_const_head {σ α : Type} [LinearOrder α] (score : σ → Option α) (z : α)
    (c : σ) (rest : List σ) (hc : score c = some z)
    (hrest : ∀ d ∈ rest, score d = some z) :
    gridLoop score (c :: rest) none ⊤ = some (some c, (z : WithTop α)) := by
  simp only [gridLoop, hc]
  rw [if_pos (WithTop.coe_lt_top z)]
  exact gridLoop_no_update score (fun _ => z) rest hrest (some c) (z : WithTop α)
    (fun d hd => lt_irrefl _)

/-! ### Helper lemmas about the scorer -/

lemma zipWith_sq_comm (l1 l2 : List ℚ) :
    List.zipWith (fun a b => (a - b) ^ 2) l1 l2 =
      List.zipWith (fun a b => (a - b) ^ 2) l2 l1 := by
  induction l1 generalizing l2 with
  | nil => cases l2 <;> rfl
  | cons a l1 ih =>
    cases l2 with
    | nil => rfl
    | cons b l2 =>
      simp only [List.zipWith_cons_cons, List.cons.injEq]
      exact ⟨by ring, ih l2⟩

lemma rmse_eq_specCompartmentError (pred target : List ℚ) :
    rmse pred target = specCompartmentError pred target := by
  rw [rmse, mean_squared_error, specCompartmentError]
  by_cases h : target.length = pred.length
  · rw [if_pos h, if_pos h.symm]
    simp only [Option.map_some']
    rw [zipWith_sq_comm, h]
  · rw [if_neg h, if_neg (fun hh => h hh.symm)]
    rfl

lemma rmse_eq_none_iff (pred target : List ℚ) :
    rmse pred target = none ↔ ¬(target.length = pred.length) := by
  rw [rmse, mean_squared_error]
  by_cases h : target.length = pred.length
  · rw [if_pos h]
    simp [h]
  · rw [if_neg h]
    simp [h]

lemma candidateScore_eq_none_iff (step nbJours : ℚ) (gt : GroundTruth)
    (init : InitConditions) (beta gamma mu : ℚ) :
    candidateScore step nbJours gt init (beta, gamma, mu) = none ↔
      (rmse (sird_forecast beta gamma mu step nbJours init).S gt.susceptibles = none ∨
       rmse (sird_forecast beta gamma mu step nbJours init).I gt.infectes = none ∨
       rmse (sird_forecast beta gamma mu step nbJours init).R gt.retablis = none ∨
       rmse (sird_forecast beta gamma mu step nbJours init).D gt.deces = none) := by
  rcases hS : rmse (sird_forecast beta gamma mu step nbJours init).S gt.susceptibles with _ | a <;>
    rcases hI : rmse (sird_forecast beta gamma mu step nbJours init).I gt.infectes with _ | b <;>
      rcases hR : rmse (sird_forecast beta gamma mu step nbJours init).R gt.retablis with _ | u <;>
        rcases hD : rmse (sird_forecast beta gamma mu step nbJours init).D gt.deces with _ | v <;>
          simp [candidateScore, hS, hI, hR, hD]

/-! ### Helper lemmas for the degenerate concrete run -/

lemma strideSlice_of_short {α : Type} (k : Nat) (l : List α) (h : l.length ≤ k) :
    strideSlice k l = l.take 1 := by
  cases l with
  | nil => rw [strideSlice_nil]; rfl
  | cons a rest =>
    rw [strideSlice_cons]
    have hr : rest.length ≤ k - 1 := by
      simp only [List.length_cons] at h
      omega
    rw [List.drop_eq_nil_of_le hr, strideSlice_nil]
    rfl

lemma sird_forecast_deg (beta gamma mu : ℚ) (init : InitConditions) :
    sird_forecast beta gamma mu 1 3 init = ⟨[0], [init.S], [init.I], [init.R], [init.D]⟩ := by
  have h2 : (pyInt ((3 : ℚ) / 1) - 1).toNat = 2 := by
    rw [pyInt_eq_floor _ (by norm_num)]
    norm_num <;> decide
  have hfull : ∀ f : ℚ × SirdState → ℚ,
      strideSlice 1000 ((sirdFull beta gamma mu 1 3 ⟨init.S, init.I, init.R, init.D⟩).map f) =
        [f (0, ⟨init.S, init.I, init.R, init.D⟩)] := by
    intro f
    rw [strideSlice_of_short 1000 _
      (by rw [List.length_map, sirdFull_length, h2]; norm_num)]
    rw [sirdFull, h2]
    rfl
  rw [sird_forecast]
  simp only [Trajectory.mk.injEq]
  exact ⟨hfull Prod.fst, hfull _, hfull _, hfull _, hfull _⟩

lemma rmse_self_singleton (x : ℚ) : rmse [x] [x] = some 0 := by
  rw [rmse, mean_squared_error]
  rw [if_pos rfl]
  simp only [Option.map_some']
  norm_num [Real.sqrt_zero]

lemma candidateScore_unit (c : ℚ × ℚ × ℚ) :
    candidateScore 1 3 gtUnit initUnit c = some 0 := by
  rw [candidateScore, sird_forecast_deg]
  simp [initUnit, gtUnit, rmse_self_singleton]

lemma linspace_head_cons (a b : ℚ) (n : Nat) (hn : n ≠ 0) :
    ∃ tl, linspace a b n = a :: tl := by
  cases n with
  | zero => exact absurd rfl hn
  | succ n =>
    refine ⟨List.map ((fun i : Nat => a + (i : ℚ) * ((b - a) / (((n + 1 : Nat) : ℚ) - 1))) ∘
      Nat.succ) (List.range n), ?_⟩
    rw [linspace, List.range_succ_eq_map, List.map_cons]
    norm_num

lemma sirdCandidates_head? :
    sirdCandidates.head? = some ((1/10 : ℚ), (1/10 : ℚ), (1/100 : ℚ)) := by
  obtain ⟨tb, hb⟩ := linspace_head_cons (1/10) 1 20 (by norm_num)
  obtain ⟨tg, hg⟩ := linspace_head_cons (1/10) 1 4 (by norm_num)
  obtain ⟨tm, hm⟩ := linspace_head_cons (1/100) (1/2) 4 (by norm_num)
  rw [sirdCandidates, betas, gammas, mus, hb, hg, hm, paramProduct]
  simp [List.flatMap_cons, List.map_cons, List.cons_append, List.head?_cons]

lemma head_mem_sirdCandidates :
    ((1/10 : ℚ), (1/10 : ℚ), (1/100 : ℚ)) ∈ sirdCandidates :=
  List.mem_of_mem_head? sirdCandidates_head?

lemma gridLoop_unit_winner :
    gridLoop (candidateScore 1 3 gtUnit initUnit) sirdCandidates none ⊤ =
      some (some ((1/10 : ℚ), (1/10 : ℚ), (1/100 : ℚ)), ((0 : ℝ) : WithTop ℝ)) := by
  have hcons := List.cons_head?_tail sirdCandidates_head?
  rw [← hcons]
  exact gridLoop_const_head _ 0 _ _ (candidateScore_unit _) (fun d _ => candidateScore_unit d)

/-! ## Claim theorems -/

/-- Claim C2: at every step of the integrator, all four derivatives are
evaluated from the same pre-step state snapshot as dS = -beta*S*I,
dI = beta*S*I - gamma*I - mu*I, dR = gamma*I, dD = mu*I, and the next state
equals the current state plus derivative times step, applied independently
to each of the four components. -/
theorem euler_step_pre_snapshot (beta gamma mu step nbJours : ℚ) (init : SirdState)
    (i : Nat) (p q : ℚ × SirdState)
    (hp : (sirdFull beta gamma mu step nbJours init)[i]? = some p)
    (hq : (sirdFull beta gamma mu step nbJours init)[i + 1]? = some q) :
    q.2.S = p.2.S + (-beta * p.2.S * p.2.I) * step ∧
    q.2.I = p.2.I + (beta * p.2.S * p.2.I - gamma * p.2.I - mu * p.2.I) * step ∧
    q.2.R = p.2.R + (gamma * p.2.I) * step ∧
    q.2.D = p.2.D + (mu * p.2.I) * step := by
  have h := sirdLoop_adjacent beta gamma mu step 0 init _ i p q hp hq
  rw [h]
  exact ⟨rfl, rfl, rfl, rfl⟩

/-- Witness for C2: one concrete Euler step from the initial state with
beta = gamma = mu = 1, step = 1, horizon = 2 days. -/
theorem euler_step_pre_snapshot_witness :
    (eulerStep 1 1 1 1 ⟨9/10, 1/10, 0, 0⟩).S = 9/10 + (-1 * (9/10) * (1/10)) * 1 ∧
    (eulerStep 1 1 1 1 ⟨9/10, 1/10, 0, 0⟩).I =
      1/10 + (1 * (9/10) * (1/10) - 1 * (1/10) - 1 * (1/10)) * 1 ∧
    (eulerStep 1 1 1 1 ⟨9/10, 1/10, 0, 0⟩).R = 0 + (1 * (1/10)) * 1 ∧
    (eulerStep 1 1 1 1 ⟨9/10, 1/10, 0, 0⟩).D = 0 + (1 * (1/10)) * 1 := by
  have hc : (pyInt ((2 : ℚ) / 1) - 1).toNat = 1 := by
    rw [pyInt_eq_floor _ (by norm_num)]
    norm_num <;> decide
  exact euler_step_pre_snapshot 1 1 1 1 2 ⟨9/10, 1/10, 0, 0⟩ 0
    (0, ⟨9/10, 1/10, 0, 0⟩) (0 + 1, eulerStep 1 1 1 1 ⟨9/10, 1/10, 0, 0⟩)
    (by rw [sirdFull, hc]; rfl) (by rw [sirdFull, hc]; rfl)

/-- Claim C3 counterexample: with step = 2 and horizon = 1 (both positive),
the full-resolution trajectory has 1 point while floor(horizon/step) = 0,
so the claimed point count "exactly floor(horizon/step)" fails. -/
theorem full_length_not_floor_counterexample :
    (0 : ℚ) < 2 ∧ (0 : ℚ) < 1 ∧
    (sirdFull 1 1 1 2 1 ⟨1, 0, 0, 0⟩).length = 1 ∧ ⌊(1 : ℚ) / 2⌋ = 0 := by
  refine ⟨by norm_num, by norm_num, ?_, by norm_num⟩
  rw [sirdFull_length, pyInt_eq_floor _ (by norm_num)]
  norm_num <;> decide

/-- Claim C3 (amended): for step > 0 and horizon > 0 the full-resolution
trajectory has exactly max 1 (floor(horizon/step)) points, its time values
are i * step exactly, and the time sequence is strictly increasing with
constant spacing step. -/
theorem full_trajectory_length_and_times (beta gamma mu step nbJours : ℚ)
    (init : SirdState) (hstep : 0 < step) (hj : 0 < nbJours) :
    (sirdFull beta gamma mu step nbJours init).length = max 1 (⌊nbJours / step⌋).toNat ∧
    (∀ (i : Nat) (p : ℚ × SirdState),
      (sirdFull beta gamma mu step nbJours init)[i]? = some p → p.1 = (i : ℚ) * step) ∧
    (∀ (i : Nat) (p q : ℚ × SirdState),
      (sirdFull beta gamma mu step nbJours init)[i]? = some p →
      (sirdFull beta gamma mu step nbJours init)[i + 1]? = some q →
      q.1 = p.1 + step ∧ p.1 < q.1) := by
  have hq0 : (0 : ℚ) ≤ nbJours / step := le_of_lt (div_pos hj hstep)
  have hfloor : pyInt (nbJours / step) = ⌊nbJours / step⌋ := pyInt_eq_floor _ hq0
  refine ⟨?_, ?_, ?_⟩
  · rw [sirdFull_length, hfloor]
    omega
  · intro i p hp
    have hlen : i ≤ (pyInt (nbJours / step) - 1).toNat := by
      by_contra hcon
      rw [List.getElem?_eq_none (by rw [sirdFull_length]; omega)] at hp
      exact Option.noConfusion hp
    rw [sirdFull, sirdLoop_getElem? beta gamma mu step _ i hlen 0 init] at hp
    rw [← Option.some.inj hp]
    simp
  · intro i p q hp hq
    have h := sirdLoop_adjacent beta gamma mu step 0 init _ i p q hp hq
    rw [h]
    exact ⟨rfl, lt_add_of_pos_right p.1 hstep⟩

/-- Witness for the amended C3 at step = 1, horizon = 2. -/
theorem full_trajectory_length_and_times_witness :
    (sirdFull 1 1 1 1 2 ⟨9/10, 1/10, 0, 0⟩).length = max 1 (⌊(2 : ℚ) / 1⌋).toNat ∧
    (∀ (i : Nat) (p : ℚ × SirdState),
      (sirdFull 1 1 1 1 2 ⟨9/10, 1/10, 0, 0⟩)[i]? = some p → p.1 = (i : ℚ) * 1) ∧
    (∀ (i : Nat) (p q : ℚ × SirdState),
      (sirdFull 1 1 1 1 2 ⟨9/10, 1/10, 0, 0⟩)[i]? = some p →
      (sirdFull 1 1 1 1 2 ⟨9/10, 1/10, 0, 0⟩)[i + 1]? = some q →
      q.1 = p.1 + 1 ∧ p.1 < q.1) :=
  full_trajectory_length_and_times 1 1 1 1 2 ⟨9/10, 1/10, 0, 0⟩ (by norm_num) (by norm_num)

/-- Claim C6: the four derivatives sum to zero by construction, so every
Euler step preserves S + I + R + D exactly (in exact arithmetic), for all
parameter values. -/
theorem population_sum_invariant (beta gamma mu step : ℚ) (st : SirdState) :
    (sirdDerivs beta gamma mu st).S + (sirdDerivs beta gamma mu st).I +
        (sirdDerivs beta gamma mu st).R + (sirdDerivs beta gamma mu st).D = 0 ∧
    (eulerStep beta gamma mu step st).S + (eulerStep beta gamma mu step st).I +
        (eulerStep beta gamma mu step st).R + (eulerStep beta gamma mu step st).D =
      st.S + st.I + st.R + st.D := by
  constructor
  · simp only [sirdDerivs]
    ring
  · simp only [eulerStep, sirdDerivs]
    ring

/-- Claim C9: for every config, even degenerate ones, the integrator output
is never empty: the full and the downsampled sequences have length at least
1, time starts at 0, and the first S, I, R, D values are exactly the
supplied initial conditions, with no derivative applied. -/
theorem trajectory_never_empty (beta gamma mu step nbJours : ℚ) (init : InitConditions) :
    1 ≤ (sirdFull beta gamma mu step nbJours ⟨init.S, init.I, init.R, init.D⟩).length ∧
    (sirdFull beta gamma mu step nbJours ⟨init.S, init.I, init.R, init.D⟩)[0]? =
      some (0, ⟨init.S, init.I, init.R, init.D⟩) ∧
    1 ≤ (sird_forecast beta gamma mu step nbJours init).time.length ∧
    (sird_forecast beta gamma mu step nbJours init).time[0]? = some 0 ∧
    (sird_forecast beta gamma mu step nbJours init).S[0]? = some init.S ∧
    (sird_forecast beta gamma mu step nbJours init).I[0]? = some init.I ∧
    (sird_forecast beta gamma mu step nbJours init).R[0]? = some init.R ∧
    (sird_forecast beta gamma mu step nbJours init).D[0]? = some init.D := by
  have hfull0 : (sirdFull beta gamma mu step nbJours ⟨init.S, init.I, init.R, init.D⟩)[0]? =
      some ((0 : ℚ), (⟨init.S, init.I, init.R, init.D⟩ : SirdState)) := by
    rw [sirdFull, sirdLoop_getElem? beta gamma mu step _ 0 (Nat.zero_le _) 0 _]
    simp
  have h0 : ∀ f : ℚ × SirdState → ℚ,
      (strideSlice 1000
        ((sirdFull beta gamma mu step nbJours ⟨init.S, init.I, init.R, init.D⟩).map f))[0]? =
        some (f (0, ⟨init.S, init.I, init.R, init.D⟩)) := by
    intro f
    rw [strideSlice_getElem? 1000 (by norm_num), Nat.mul_zero, List.getElem?_map, hfull0]
    rfl
  have hlen : ∀ f : ℚ × SirdState → ℚ,
      1 ≤ (strideSlice 1000
        ((sirdFull beta gamma mu step nbJours ⟨init.S, init.I, init.R, init.D⟩).map f)).length :=
    fun f => List.length_pos.mpr (List.ne_nil_of_mem (List.getElem?_mem (h0 f)))
  refine ⟨?_, hfull0, ?_, ?_, ?_, ?_, ?_, ?_⟩
  · rw [sirdFull_length]
    omega
  · exact hlen Prod.fst
  · exact h0 Prod.fst
  · exact h0 _
  · exact h0 _
  · exact h0 _
  · exact h0 _

/-- Claim C4: for every candidate, the code's score equals the spec's one:
the unweighted sum of four per-compartment errors, each the square root of
the mean squared error between the predicted downsampled array and the
corresponding ground-truth column, computed independently per compartment. -/
theorem score_matches_spec (step nbJours : ℚ) (gt : GroundTruth)
    (init : InitConditions) (c : ℚ × ℚ × ℚ) :
    candidateScore step nbJours gt init c = specAggregateScore step nbJours gt init c := by
  rw [candidateScore, specAggregateScore,
    rmse_eq_specCompartmentError, rmse_eq_specCompartmentError,
    rmse_eq_specCompartmentError, rmse_eq_specCompartmentError]

/-- Claim C5: the downsampled output of the integrator is exactly the
stride-1000 subsequence of the time sequence and of each state sequence
(indices 0, 1000, 2000, ... in order); its length is the ceiling of
full-length / 1000, so 90000 full points yield 90 points, and a full
trajectory of at most 1000 points keeps only its first point. -/
theorem downsample_is_stride_1000 (beta gamma mu step nbJours : ℚ) (init : InitConditions) :
    (∀ i : Nat, (sird_forecast beta gamma mu step nbJours init).time[i]? =
      ((sirdFull beta gamma mu step nbJours ⟨init.S, init.I, init.R, init.D⟩).map
        Prod.fst)[1000 * i]?) ∧
    (∀ i : Nat, (sird_forecast beta gamma mu step nbJours init).S[i]? =
      ((sirdFull beta gamma mu step nbJours ⟨init.S, init.I, init.R, init.D⟩).map
        (fun p => p.2.S))[1000 * i]?) ∧
    (∀ i : Nat, (sird_forecast beta gamma mu step nbJours init).I[i]? =
      ((sirdFull beta gamma mu step nbJours ⟨init.S, init.I, init.R, init.D⟩).map
        (fun p => p.2.I))[1000 * i]?) ∧
    (∀ i : Nat, (sird_forecast beta gamma mu step nbJours init).R[i]? =
      ((sirdFull beta gamma mu step nbJours ⟨init.S, init.I, init.R, init.D⟩).map
        (fun p => p.2.R))[1000 * i]?) ∧
    (∀ i : Nat, (sird_forecast beta gamma mu step nbJours init).D[i]? =
      ((sirdFull beta gamma mu step nbJours ⟨init.S, init.I, init.R, init.D⟩).map
        (fun p => p.2.D))[1000 * i]?) ∧
    (sird_forecast beta gamma mu step nbJours init).time.length =
      ((sirdFull beta gamma mu step nbJours ⟨init.S, init.I, init.R, init.D⟩).length + 999)
        / 1000 ∧
    ((sirdFull beta gamma mu step nbJours ⟨init.S, init.I, init.R, init.D⟩).length ≤ 1000 →
      (sird_forecast beta gamma mu step nbJours init).time =
        ((sirdFull beta gamma mu step nbJours ⟨init.S, init.I, init.R, init.D⟩).map
          Prod.fst).take 1) ∧
    ((sirdFull beta gamma mu step nbJours ⟨init.S, init.I, init.R, init.D⟩).length = 90000 →
      (sird_forecast beta gamma mu step nbJours init).time.length = 90) := by
  refine ⟨?_, ?_, ?_, ?_, ?_, ?_, ?_, ?_⟩
  · intro i
    simp only [sird_forecast]
    exact strideSlice_getElem? 1000 (by norm_num) _ i
  · intro i
    simp only [sird_forecast]
    exact strideSlice_getElem? 1000 (by norm_num) _ i
  · intro i
    simp only [sird_forecast]
    exact strideSlice_getElem? 1000 (by norm_num) _ i
  · intro i
    simp only [sird_forecast]
    exact strideSlice_getElem? 1000 (by norm_num) _ i
  · intro i
    simp only [sird_forecast]
    exact strideSlice_getElem? 1000 (by norm_num) _ i
  · simp only [sird_forecast]
    rw [strideSlice_length 1000 (by norm_num), List.length_map]
    omega
  · intro h
    simp only [sird_forecast]
    exact strideSlice_of_short 1000 _ (by rw [List.length_map]; exact h)
  · intro h
    simp only [sird_forecast]
    rw [strideSlice_length 1000 (by norm_num), List.length_map, h]

/-- Witness for C5: the take-one behaviour on a 2-point run and the
90-point downsample of a 90000-point run. -/
theorem downsample_is_stride_1000_witness :
    (sird_forecast 1 1 1 1 2 ⟨9/10, 1/10, 0, 0⟩).time =
      ((sirdFull 1 1 1 1 2 ⟨9/10, 1/10, 0, 0⟩).map Prod.fst).take 1 ∧
    (sird_forecast 1 1 1 (1/1000) 90 ⟨9/10, 1/10, 0, 0⟩).time.length = 90 := by
  have h1 : (pyInt ((2 : ℚ) / 1) - 1).toNat = 1 := by
    rw [pyInt_eq_floor _ (by norm_num)]
    norm_num <;> decide
  have h2 : (pyInt ((90 : ℚ) / (1/1000)) - 1).toNat = 89999 := by
    rw [pyInt_eq_floor _ (by norm_num)]
    norm_num <;> decide
  constructor
  · exact (downsample_is_stride_1000 1 1 1 1 2 ⟨9/10, 1/10, 0, 0⟩).2.2.2.2.2.2.1
      (by rw [sirdFull_length, h1]; norm_num)
  · exact (downsample_is_stride_1000 1 1 1 (1/1000) 90 ⟨9/10, 1/10, 0, 0⟩).2.2.2.2.2.2.2
      (by rw [sirdFull_length, h2])

/-- Claim C1: when every candidate scores successfully, the search loop
scans the whole beta/gamma/mu Cartesian product (beta outermost, then
gamma, then mu, as `sirdCandidates` fixes) and ends on a candidate whose
score is minimal over every candidate; since only a strictly lower score
replaces the incumbent, every earlier-enumerated candidate scores strictly
higher, i.e. the first-enumerated minimum wins ties. -/
theorem grid_search_selects_first_minimum (step nbJours : ℚ) (gt : GroundTruth)
    (init : InitConditions) (F : ℚ × ℚ × ℚ → ℝ)
    (hF : ∀ c ∈ sirdCandidates, candidateScore step nbJours gt init c = some (F c)) :
    ∃ (i : Nat) (c : ℚ × ℚ × ℚ), sirdCandidates[i]? = some c ∧
      gridLoop (candidateScore step nbJours gt init) sirdCandidates none ⊤ =
        some (some c, (F c : WithTop ℝ)) ∧
      (∀ (j : Nat) (d : ℚ × ℚ × ℚ), sirdCandidates[j]? = some d → F c ≤ F d) ∧
      (∀ (j : Nat) (d : ℚ × ℚ × ℚ), j < i → sirdCandidates[j]? = some d → F c < F d) := by
  obtain ⟨i, c, h1, h2, _, h4, h5⟩ :=
    gridLoop_first_argmin (candidateScore step nbJours gt init) F sirdCandidates none ⊤ hF
      ⟨(1/10, 1/10, 1/100), head_mem_sirdCandidates, WithTop.coe_lt_top _⟩
  exact ⟨i, c, h1, h2, h4, h5⟩

/-- Witness for C1 on the degenerate run where every candidate scores 0. -/
theorem grid_search_selects_first_minimum_witness :
    ∃ (i : Nat) (c : ℚ × ℚ × ℚ), sirdCandidates[i]? = some c ∧
      gridLoop (candidateScore 1 3 gtUnit initUnit) sirdCandidates none ⊤ =
        some (some c, ((0 : ℝ) : WithTop ℝ)) ∧
      (∀ (j : Nat) (d : ℚ × ℚ × ℚ), sirdCandidates[j]? = some d → (0 : ℝ) ≤ 0) ∧
      (∀ (j : Nat) (d : ℚ × ℚ × ℚ), j < i → sirdCandidates[j]? = some d → (0 : ℝ) < 0) :=
  grid_search_selects_first_minimum 1 3 gtUnit initUnit (fun _ => 0)
    (fun c _ => candidateScore_unit c)

/-- Claim C7 counterexample: at a concrete input the search returns just
the winner's downsampled trajectory (five sequences); neither the winning
parameter triple (printed only) nor its score is part of the returned
value. -/
theorem grid_search_output_counterexample :
    grid_search_sird 1 3 gtUnit initUnit = some ⟨[0], [9/10], [1/10], [0], [0]⟩ := by
  rw [grid_search_sird, gridLoop_unit_winner]
  show some (sird_forecast (1/10) (1/10) (1/100) 1 3 initUnit) = _
  rw [sird_forecast_deg]
  rfl

/-- Claim C7 (amended): the search's returned output is only the winner's
full downsampled trajectory, recomputed at the end by one extra integrator
invocation with the winning parameters rather than cached from the loop;
the winning triple is only printed and the score is not returned. -/
theorem grid_search_returns_recomputed_trajectory (step nbJours : ℚ) (gt : GroundTruth)
    (init : InitConditions) (c : ℚ × ℚ × ℚ) (s : WithTop ℝ)
    (h : gridLoop (candidateScore step nbJours gt init) sirdCandidates none ⊤ =
      some (some c, s)) :
    grid_search_sird step nbJours gt init =
      some (sird_forecast c.1 c.2.1 c.2.2 step nbJours init) := by
  rw [grid_search_sird, h]

/-- Witness for the amended C7 on the degenerate run. -/
theorem grid_search_returns_recomputed_trajectory_witness :
    grid_search_sird 1 3 gtUnit initUnit =
      some (sird_forecast (1/10) (1/10) (1/100) 1 3 initUnit) :=
  grid_search_returns_recomputed_trajectory 1 3 gtUnit initUnit (1/10, 1/10, 1/100) _
    gridLoop_unit_winner

/-- Claim C8: a scoring call fails exactly when the downsampled predicted
series and the corresponding ground-truth column do not have identical
length (when all four lengths match, scoring succeeds), and a length
mismatch during any candidate's scoring aborts the whole search with no
partial result. -/
theorem scoring_fails_iff_length_mismatch (step nbJours : ℚ) (gt : GroundTruth)
    (init : InitConditions) (beta gamma mu : ℚ) :
    (candidateScore step nbJours gt init (beta, gamma, mu) = none ↔
      ¬(gt.susceptibles.length = (sird_forecast beta gamma mu step nbJours init).S.length ∧
        gt.infectes.length = (sird_forecast beta gamma mu step nbJours init).I.length ∧
        gt.retablis.length = (sird_forecast beta gamma mu step nbJours init).R.length ∧
        gt.deces.length = (sird_forecast beta gamma mu step nbJours init).D.length)) ∧
    ((∃ c ∈ sirdCandidates, candidateScore step nbJours gt init c = none) →
      grid_search_sird step nbJours gt init = none) := by
  constructor
  · rw [candidateScore_eq_none_iff]
    simp only [rmse_eq_none_iff]
    tauto
  · intro h
    rw [grid_search_sird,
      gridLoop_abort (candidateScore step nbJours gt init) sirdCandidates none ⊤ h]

/-- Witness for C8: empty ground-truth columns mismatch the one-point
downsampled run, so scoring fails and the whole search returns nothing. -/
theorem scoring_fails_iff_length_mismatch_witness :
    candidateScore 1 3 gtBad initUnit (1/10, 1/10, 1/100) = none ∧
    grid_search_sird 1 3 gtBad initUnit = none := by
  have hmm : ¬(gtBad.susceptibles.length =
        (sird_forecast (1/10) (1/10) (1/100) 1 3 initUnit).S.length ∧
      gtBad.infectes.length = (sird_forecast (1/10) (1/10) (1/100) 1 3 initUnit).I.length ∧
      gtBad.retablis.length = (sird_forecast (1/10) (1/10) (1/100) 1 3 initUnit).R.length ∧
      gtBad.deces.length = (sird_forecast (1/10) (1/10) (1/100) 1 3 initUnit).D.length) := by
    rw [sird_forecast_deg]
    simp [gtBad]
  have hnone : candidateScore 1 3 gtBad initUnit (1/10, 1/10, 1/100) = none :=
    (scoring_fails_iff_length_mismatch 1 3 gtBad initUnit (1/10) (1/10) (1/100)).1.mpr hmm
  exact ⟨hnone, (scoring_fails_iff_length_mismatch 1 3 gtBad initUnit (1/10) (1/10) (1/100)).2
    ⟨(1/10, 1/10, 1/100), head_mem_sirdCandidates, hnone⟩⟩

/-! ### Helpers for the candidate-grid claim -/

lemma linspace_getElem? (a b : ℚ) (n i : Nat) (h : i < n) :
    (linspace a b n)[i]? = some (a + (i : ℚ) * ((b - a) / ((n : ℚ) - 1))) := by
  rw [linspace, List.getElem?_map, List.getElem?_range h]
  rfl

lemma length_flatMap_const {α β : Type} (l : List α) (f : α → List β) (k : Nat)
    (h : ∀ x ∈ l, (f x).length = k) : (l.flatMap f).length = l.length * k := by
  induction l with
  | nil => simp
  | cons x xs ih =>
    rw [List.flatMap_cons, List.length_append, h x (List.mem_cons_self x xs),
      ih (fun y hy => h y (List.mem_cons_of_mem x hy)), List.length_cons]
    ring

/-- Claim C10: the candidate set scanned by the grid search is a fixed
constant, independent of the search's arguments (`sirdCandidates` takes
none): the Cartesian product of 20 evenly spaced beta values from 1/10 to
1, 4 evenly spaced gamma values from 1/10 to 1, and 4 evenly spaced mu
values from 1/100 to 1/2 - 320 candidates in total. -/
theorem candidate_grid_fixed :
    (∀ i : Nat, i < 20 → betas[i]? = some (1/10 + (i : ℚ) * ((1 - 1/10) / (20 - 1)))) ∧
    (∀ j : Nat, j < 4 → gammas[j]? = some (1/10 + (j : ℚ) * ((1 - 1/10) / (4 - 1)))) ∧
    (∀ k : Nat, k < 4 → mus[k]? = some (1/100 + (k : ℚ) * ((1/2 - 1/100) / (4 - 1)))) ∧
    betas.length = 20 ∧ gammas.length = 4 ∧ mus.length = 4 ∧
    sirdCandidates.length = 320 ∧
    (∀ c : ℚ × ℚ × ℚ, c ∈ sirdCandidates ↔
      ∃ b ∈ betas, ∃ g ∈ gammas, ∃ m ∈ mus, c = (b, g, m)) := by
  have hb : betas.length = 20 := by rw [betas, linspace, List.length_map, List.length_range]
  have hg : gammas.length = 4 := by rw [gammas, linspace, List.length_map, List.length_range]
  have hm : mus.length = 4 := by rw [mus, linspace, List.length_map, List.length_range]
  refine ⟨?_, ?_, ?_, hb, hg, hm, ?_, ?_⟩
  · intro i hi
    rw [betas, linspace_getElem? _ _ _ _ hi]
    norm_num
  · intro j hj
    rw [gammas, linspace_getElem? _ _ _ _ hj]
    norm_num
  · intro k hk
    rw [mus, linspace_getElem? _ _ _ _ hk]
    norm_num
  · rw [sirdCandidates, paramProduct]
    have hinner : ∀ b ∈ betas,
        ((fun b => gammas.flatMap (fun g => mus.map (fun m => (b, g, m)))) b).length = 16 := by
      intro b _
      simp only
      rw [length_flatMap_const _ _ 4 (fun g _ => by rw [List.length_map, hm]), hg]
    rw [length_flatMap_const _ _ 16 hinner, hb]
  · intro c
    rw [sirdCandidates, paramProduct]
    simp only [List.mem_flatMap, List.mem_map]
    constructor
    · rintro ⟨b, hbmem, g, hgmem, m, hmmem, rfl⟩
      exact ⟨b, hbmem, g, hgmem, m, hmmem, rfl⟩
    · rintro ⟨b, hbmem, g, hgmem, m, hmmem, rfl⟩
      exact ⟨b, hbmem, g, hgmem, m, hmmem, rfl⟩

/-- Witness for C10: the last beta grid point and the total count. -/
theorem candidate_grid_fixed_witness :
    betas[19]? = some (1/10 + (19 : ℚ) * ((1 - 1/10) / (20 - 1))) ∧
    sirdCandidates.length = 320 :=
  ⟨candidate_grid_fixed.1 19 (by norm_num), candidate_grid_fixed.2.2.2.2.2.2.1⟩

end SIRD
